import Mathlib

/-!
Verification of the DarkWave Task Manager core: mode classification
(`app/mode.py`), task extraction validation (`app/llm_service.py`),
task-list rendering (`app/task_formatter.py`, `app/todoist_links.py`)
and the retrieval query builder (`app/main.py`, `handle_retrieve_mode`).

The Python sources use `re.search` with a small set of regex constructs
(start anchors, literal alternations, word boundaries, one negative
lookahead, `\s+`, optional quotes, `\w+` captures, `.*` gaps).  Each
pattern is embedded here as an executable function over `List Char`,
built from a few shared searching combinators whose semantics mirror
`re.search` (scan every start position from the left; a pattern matches
if its decomposition exists at some position).
-/

namespace DarkWave

/-! ## Character classes and literal matching -/

/-- Python regex `\w` (ASCII case, inputs are lowercased): letter, digit or
underscore. -/
def isWordChar (c : Char) : Bool := c.isAlphanum || c == '_'

/-- Word boundary `\b` on the left of a match that starts with a word
character: the previous character (if any) is not a word character. -/
def noWordBefore : Option Char → Bool
  | none => true
  | some c => !isWordChar c

/-- Word boundary `\b` on the right of a match that ends with a word
character: the next character (if any) is not a word character. -/
def noWordAfter : List Char → Bool
  | [] => true
  | c :: _ => !isWordChar c

/-- The apostrophe character (U+0027), kept out of string literals. -/
def aposC : Char := Char.ofNat 39

/-- The apostrophe as a one-character string. -/
def aposS : String := String.mk [aposC]

/-- Characters of a string literal. -/
def lit (s : String) : List Char := s.data

/-- Strip a literal off the front of the input, returning the rest. -/
def dropLit : List Char → List Char → Option (List Char)
  | [], cs => some cs
  | _ :: _, [] => none
  | w :: ws, c :: cs => if w == c then dropLit ws cs else none

/-- Last character of `u`, falling back to `prev` when `u` is empty: the
character preceding the current scan position. -/
def lastO (prev : Option Char) (u : List Char) : Option Char :=
  match u.getLast? with
  | some c => some c
  | none => prev

/-- Position scan of `re.search`: test predicate `p` (which receives the
preceding character and the remaining suffix) at every position from the
left. -/
def searchFrom (prev : Option Char) (cs : List Char)
    (p : Option Char → List Char → Bool) : Bool :=
  match cs with
  | [] => p prev []
  | c :: rest => p prev (c :: rest) || searchFrom (some c) rest p

/-- Position predicate for `\b(w1|w2|...)` with an optional trailing `\b`
(`bAfter`); every alternative starts and ends with a word character. -/
def wordAltAt (ws : List (List Char)) (bAfter : Bool)
    (prev : Option Char) (cs : List Char) : Bool :=
  ws.any fun w =>
    noWordBefore prev &&
      match dropLit w cs with
      | some rest => !bAfter || noWordAfter rest
      | none => false

/-- Search emulating `re.search` for `\b(w1|w2|...)` with optional trailing `\b`. -/
def searchWord (ws : List (List Char)) (bAfter : Bool) (cs : List Char) : Bool :=
  searchFrom none cs (wordAltAt ws bAfter)

/-- Scan for a second pattern after a `.*` gap: `.` does not match a
newline, so the scan stops if it would have to step over `\n`. -/
def searchNoNL (prev : Option Char) (cs : List Char)
    (p : Option Char → List Char → Bool) : Bool :=
  match cs with
  | [] => p prev []
  | c :: rest => p prev (c :: rest) || (c != '\n' && searchNoNL (some c) rest p)

/-- Position predicate for `\b(g1)\b? .* \b(g2)\b?`: one alternative of the
first group here, then the second group after a newline-free gap. -/
def seqAltAt (ws1 : List (List Char)) (bAfter1 : Bool)
    (ws2 : List (List Char)) (bAfter2 : Bool)
    (prev : Option Char) (cs : List Char) : Bool :=
  ws1.any fun w =>
    noWordBefore prev &&
      match dropLit w cs with
      | some rest =>
        (!bAfter1 || noWordAfter rest) &&
          searchNoNL (lastO prev w) rest (wordAltAt ws2 bAfter2)
      | none => false

/-- Search emulating `re.search` for `\b(g1)(\b)?.*\b(g2)(\b)?`. -/
def searchSeq (ws1 : List (List Char)) (bAfter1 : Bool)
    (ws2 : List (List Char)) (bAfter2 : Bool) (cs : List Char) : Bool :=
  searchFrom none cs (seqAltAt ws1 bAfter1 ws2 bAfter2)

/-- Trailing `[\s!?.]*$`: every remaining character is whitespace or one of
`!`, `?`, `.`. -/
def tailPunct (cs : List Char) : Bool :=
  cs.all fun c => c.isWhitespace || c == '!' || c == '?' || c == '.'

/-- Anchored full match `^(w1|w2|...)[\s!?.]*$`. -/
def greetingMatch (ws : List (List Char)) (cs : List Char) : Bool :=
  ws.any fun w =>
    match dropLit w cs with
    | some rest => tailPunct rest
    | none => false

/-- Anchored `^(w1|w2|...)` with nothing after the group: the input starts
with one of the alternatives. -/
def startsAny (ws : List (List Char)) (cs : List Char) : Bool :=
  ws.any fun w => (dropLit w cs).isSome

/-- Python `str.strip`: drop whitespace from both ends. -/
def trimL (cs : List Char) : List Char :=
  ((cs.dropWhile Char.isWhitespace).reverse.dropWhile Char.isWhitespace).reverse

/-- Python `str.lower` (ASCII case). -/
def toLowerL (cs : List Char) : List Char := cs.map Char.toLower

/-! ## `app/mode.py`: the mode classifier -/

/-- Conversation modes of the task assistant (`app/mode.py`, `Mode`). -/
inductive Mode where
  | CHAT
  | CREATE
  | RETRIEVE
deriving DecidableEq, Repr

/-- Chat pattern `^(hi|hello|hey|greetings)[\s!?.]*$`. -/
def chat1 (cs : List Char) : Bool :=
  greetingMatch [lit "hi", lit "hello", lit "hey", lit "greetings"] cs

/-- Chat pattern `^(good morning|good afternoon|good evening)[\s!?.]*$`. -/
def chat2 (cs : List Char) : Bool :=
  greetingMatch [lit "good morning", lit "good afternoon", lit "good evening"] cs

/-- Chat pattern `\b(what can you do|how do you work|help me|show me how)\b`. -/
def chat3 (cs : List Char) : Bool :=
  searchWord [lit "what can you do", lit "how do you work", lit "help me",
    lit "show me how"] true cs

/-- Chat pattern `\b(who are you|what are you)\b`. -/
def chat4 (cs : List Char) : Bool :=
  searchWord [lit "who are you", lit "what are you"] true cs

/-- Some chat pattern matches. -/
def chatMatch (cs : List Char) : Bool :=
  chat1 cs || chat2 cs || chat3 cs || chat4 cs

/-- Create pattern `^(add|create|new|make|remind me to|i need to|todo:)`. -/
def create1 (cs : List Char) : Bool :=
  startsAny [lit "add", lit "create", lit "new", lit "make",
    lit "remind me to", lit "i need to", lit "todo:"] cs

/-- Create pattern `\b(add|create|remind me)\b.*\b(task|todo|to-do|list)\b`. -/
def create2 (cs : List Char) : Bool :=
  searchSeq [lit "add", lit "create", lit "remind me"] true
    [lit "task", lit "todo", lit "to-do", lit "list"] true cs

/-- Some create pattern matches. -/
def createMatch (cs : List Char) : Bool :=
  create1 cs || create2 cs

/-- Retrieve pattern 1, the anchored `^what'?s? on my` (both the apostrophe
and the `s` are optional). -/
def retr1 (cs : List Char) : Bool :=
  startsAny [lit "what on my", lit "what" ++ [aposC] ++ lit " on my",
    lit "whats on my", lit "what" ++ [aposC] ++ lit "s on my"] cs

/-- Retrieve pattern 2, `^do i have (any )?task`. -/
def retr2 (cs : List Char) : Bool :=
  startsAny [lit "do i have task", lit "do i have any task"] cs

/-- Retrieve pattern 3, `\bmy (tasks|todo|to-do|to do|list)\b`. -/
def retr3 (cs : List Char) : Bool :=
  searchWord [lit "my tasks", lit "my todo", lit "my to-do", lit "my to do",
    lit "my list"] true cs

/-- Position predicate for retrieve pattern 4, `\bmy task\b(?! is)`: the
negative lookahead rejects the occurrence when it is directly followed by
the three characters of " is". -/
def myTaskNotIsAt (prev : Option Char) (cs : List Char) : Bool :=
  noWordBefore prev &&
    match dropLit (lit "my task") cs with
    | some rest => noWordAfter rest && !(dropLit (lit " is") rest).isSome
    | none => false

/-- Retrieve pattern 4, `\bmy task\b(?! is)`. -/
def retr4 (cs : List Char) : Bool :=
  searchFrom none cs myTaskNotIsAt

/-- Retrieve pattern 5,
`\b(what|show|list|display|get|find|see|view|check)\b.*\b(task|todo|to-do|to do)`
(no trailing boundary on the second group). -/
def retr5 (cs : List Char) : Bool :=
  searchSeq [lit "what", lit "show", lit "list", lit "display", lit "get",
      lit "find", lit "see", lit "view", lit "check"] true
    [lit "task", lit "todo", lit "to-do", lit "to do"] false cs

/-- Retrieve pattern 6,
`\b(task|todo|to-do|to do).*\b(what|show|list|display|do i have)`
(no trailing boundary on either group). -/
def retr6 (cs : List Char) : Bool :=
  searchSeq [lit "task", lit "todo", lit "to-do", lit "to do"] false
    [lit "what", lit "show", lit "list", lit "display", lit "do i have"] false cs

/-- Retrieve pattern 7,
`\b(what|show|list|display|get|view|check)\b.*\b(list|todo list|to-do list)`. -/
def retr7 (cs : List Char) : Bool :=
  searchSeq [lit "what", lit "show", lit "list", lit "display", lit "get",
      lit "view", lit "check"] true
    [lit "list", lit "todo list", lit "to-do list"] false cs

/-- Retrieve pattern 8, `\bon my (list|todo|to-do|tasks?)` (optional final
`s`, no trailing boundary). -/
def retr8 (cs : List Char) : Bool :=
  searchWord [lit "on my list", lit "on my todo", lit "on my to-do",
    lit "on my task", lit "on my tasks"] false cs

/-- Retrieve pattern 9, `^(my tasks|show tasks|list tasks|check tasks|view tasks)`. -/
def retr9 (cs : List Char) : Bool :=
  startsAny [lit "my tasks", lit "show tasks", lit "list tasks",
    lit "check tasks", lit "view tasks"] cs

/-- Alternatives of retrieve pattern 10, `^(show|check|view) (my )?(task|todo|to-do|list)`. -/
def retr10Alts : List (List Char) :=
  ([ "show", "check", "view" ] : List String).flatMap fun v =>
    ([ "", "my " ] : List String).flatMap fun m =>
      ([ "task", "todo", "to-do", "list" ] : List String).map fun n =>
        lit (v ++ " " ++ m ++ n)

/-- Retrieve pattern 10, `^(show|check|view) (my )?(task|todo|to-do|list)`. -/
def retr10 (cs : List Char) : Bool :=
  startsAny retr10Alts cs

/-- Retrieve pattern 11, `\b(due today|due tomorrow|overdue)\b`. -/
def retr11 (cs : List Char) : Bool :=
  searchWord [lit "due today", lit "due tomorrow", lit "overdue"] true cs

/-- Retrieve pattern 12, `\b(tasks? (with|labeled|tagged))\b`. -/
def retr12 (cs : List Char) : Bool :=
  searchWord [lit "task with", lit "task labeled", lit "task tagged",
    lit "tasks with", lit "tasks labeled", lit "tasks tagged"] true cs

/-- Some retrieve pattern matches. -/
def retrieveMatch (cs : List Char) : Bool :=
  retr1 cs || retr2 cs || retr3 cs || retr4 cs || retr5 cs || retr6 cs ||
    retr7 cs || retr8 cs || retr9 cs || retr10 cs || retr11 cs || retr12 cs

/-- Embedding of `detect_mode` in `app/mode.py`: empty or all-whitespace input is CHAT;
otherwise the stripped, lowercased message is tested against the chat
patterns, then the create patterns, then the retrieve patterns, and
defaults to CREATE. -/
def detect_mode (user_message : String) : Mode :=
  if trimL user_message.data = [] then Mode.CHAT
  else
    let message_lower := toLowerL (trimL user_message.data)
    if chatMatch message_lower then Mode.CHAT
    else if createMatch message_lower then Mode.CREATE
    else if retrieveMatch message_lower then Mode.RETRIEVE
    else Mode.CREATE

/-! ## `app/llm_service.py`: the extraction schema and its validation

`LLMService.parse_task` runs the prompt through the external model and
feeds the raw response text to a `PydanticOutputParser` for the
`TodoistTask` model.  The external call itself is not modelled; the
embedding starts at the service response, represented either as text
that does not decode to a JSON object (`malformed`) or as a decoded
object with each schema field absent, JSON `null`, or a value of the
declared type (a response with a field of the wrong type behaves like
`malformed`: validation fails with a detail message). -/

/-- Embedding of `TodoistTask` in `app/llm_service.py`: the validated task record. -/
structure TodoistTask where
  content : String
  description : Option String
  priority : Int
  due_string : Option String
  labels : List String
  project_id : Option String
deriving DecidableEq, Repr

/-- A decoded service response: for each field of the schema, `none` means
the key is absent; for the `str | None` fields `some none` means JSON
`null`. -/
structure RawResponse where
  content : Option String
  description : Option (Option String)
  priority : Option Int
  due_string : Option (Option String)
  labels : Option (List String)
  project_id : Option (Option String)
deriving DecidableEq, Repr

/-- The raw service output handed to the output parser. -/
inductive RawOutput where
  | malformed (raw : String)
  | obj (r : RawResponse)
deriving DecidableEq, Repr

/-- Pydantic validation of the `TodoistTask` model: `content` is required
with no default; `description` defaults to the empty string; `priority`
defaults to 3 and must satisfy `ge=1, le=4`; `due_string` and
`project_id` default to `None`; `labels` defaults to the empty list. -/
def validateTask (r : RawResponse) : Except String TodoistTask :=
  match r.content with
  | none => Except.error "content: Field required"
  | some c =>
    let p := r.priority.getD 3
    if p < 1 then
      Except.error ("priority: Input should be greater than or equal to 1, got " ++ toString p)
    else if 4 < p then
      Except.error ("priority: Input should be less than or equal to 4, got " ++ toString p)
    else
      Except.ok
        { content := c
          description := r.description.getD (some "")
          priority := p
          due_string := r.due_string.getD none
          labels := r.labels.getD []
          project_id := r.project_id.getD none }

/-- The `ValueError` message built in `parse_task`: the offending detail is
attached to the rephrase request. -/
def failMsg (detail : String) : String :=
  "Failed to parse task from input: " ++ detail ++
    "\nPlease try rephrasing your request or provide more specific details."

/-- Embedding of `LLMService.parse_task` in `app/llm_service.py`, from the parsing step on:
output that is not a JSON object raises through the `except` block, and a
decoded object is validated against the schema; any failure becomes a
single `ValueError` carrying the detail, with no retry and no fallback
value for any field. -/
def parse_task (out : RawOutput) : Except String TodoistTask :=
  match out with
  | RawOutput.malformed raw => Except.error (failMsg ("Invalid json output: " ++ raw))
  | RawOutput.obj r =>
    match validateTask r with
    | Except.error d => Except.error (failMsg d)
    | Except.ok t => Except.ok t

/-! ## `app/todoist_links.py` and `app/task_formatter.py`: rendering -/

/-- The `due` sub-dictionary of a task returned by the task store, with its
optional `date` and `datetime` keys (absent or empty string both count as
falsy in the Python source, so `none` and `some ""` behave alike). -/
structure DueInfo where
  date : Option String
  datetime : Option String
deriving DecidableEq, Repr

/-- A task dictionary as consumed by the formatter: the keys it reads, each
absent (`none`) or present.  A present-but-falsy `due` value behaves like
an absent one in the source, so both are `none` here; an absent or `null`
`labels` key is the empty list. -/
structure TaskDict where
  id : Option String
  content : Option String
  due : Option DueInfo
  labels : List String
  url : Option String
deriving DecidableEq, Repr

/-- Embedding of `build_task_url` in `app/todoist_links.py`: prefer a truthy `url` field,
else build the fixed deep-link template from a truthy `id`, else `None`. -/
def build_task_url (task : Option TaskDict) : Option String :=
  match task with
  | none => none
  | some t =>
    if t.url.getD "" != "" then t.url
    else
      match t.id with
      | some i => if i != "" then some ("https://app.todoist.com/app/task/" ++ i) else none
      | none => none

/-- Python `sep.join(parts)`. -/
def joinSep (sep : String) : List String → String
  | [] => ""
  | [x] => x
  | x :: y :: xs => x ++ sep ++ joinSep sep (y :: xs)

/-- The optional due-date part of a task line: pick `due["date"]` or fall
back to `due["datetime"]`; keep only the part before the first `T` when a
combined date-time is supplied. -/
def dueParts (t : TaskDict) : List String :=
  match t.due with
  | none => []
  | some d =>
    let due_date := if d.date.getD "" != "" then d.date.getD "" else d.datetime.getD ""
    if due_date != "" then
      let date_str :=
        if due_date.data.contains 'T' then
          String.mk (due_date.data.takeWhile fun c => c != 'T')
        else due_date
      ["📅 " ++ date_str]
    else []

/-- The optional comma-joined italic labels part of a task line. -/
def labelParts (t : TaskDict) : List String :=
  if t.labels != [] then
    [joinSep ", " (t.labels.map fun l => "_" ++ l ++ "_")]
  else []

/-- The ` · `-joined parts of one task line before the link: bold content
(with the "Untitled task" placeholder), optional date, optional labels. -/
def baseLine (t : TaskDict) : String :=
  joinSep " · " (["**" ++ t.content.getD "Untitled task" ++ "**"] ++ dueParts t ++ labelParts t)

/-- One rendered task line of `format_task_list`, link segment included. -/
def formatLine (t : TaskDict) : String :=
  match build_task_url (some t) with
  | some u => baseLine t ++ " · [View in Todoist](" ++ u ++ ")"
  | none => baseLine t

/-- Python truthiness of the optional `filter_description` argument: a
present non-empty string. -/
def fdTruthy (fd : Option String) : Bool := fd.getD "" != ""

/-- The header line of a non-empty listing (`task_formatter.py` lines
56-63). -/
def headerFor (fd : Option String) (count : Nat) : String :=
  let item_word := if count = 1 then "item" else "items"
  if fdTruthy fd then
    "### Tasks " ++ fd.getD "" ++ " (" ++ toString count ++ " " ++ item_word ++ ")\n\n"
  else
    "### Your Tasks (" ++ toString count ++ " " ++ item_word ++ ")\n\n"

/-- The empty-state message of `format_task_list`. -/
def emptyState (fd : Option String) : String :=
  "You don" ++ aposS ++ "t have any active tasks right now. ✨\n\n" ++
    (if fdTruthy fd then "No tasks found " ++ fd.getD "" ++ ".\n\n" else "") ++
    "Try creating a task like:\n" ++
    "- \"Buy groceries tomorrow\"\n" ++
    "- \"Call dentist at 2pm\"\n" ++
    "- \"Review project proposal\""

/-- Embedding of `format_task_list` in `app/task_formatter.py`. -/
def format_task_list (tasks : List TaskDict) (filter_description : Option String) : String :=
  match tasks with
  | [] => emptyState filter_description
  | _ :: _ =>
    headerFor filter_description tasks.length ++
      joinSep "\n" (tasks.map fun t => "- " ++ formatLine t)

/-! ## `app/main.py`, `handle_retrieve_mode`: the retrieval query builder -/

/-- Consume `\s+`: at least one whitespace character, then the maximal
whitespace run (equivalent to the backtracking regex here because every
continuation starts with a non-whitespace character). -/
def takeWs1 (cs : List Char) : Option (List Char) :=
  match cs with
  | c :: rest => if c.isWhitespace then some (rest.dropWhile Char.isWhitespace) else none
  | [] => none

/-- Position predicate for `\b(due\s+)?today\b` (UC-R2 check in
`handle_retrieve_mode`): either `today` directly, or `due`, whitespace,
`today`, in both cases with word boundaries at the match ends. -/
def dueTodayAt (prev : Option Char) (cs : List Char) : Bool :=
  (noWordBefore prev &&
    match dropLit (lit "today") cs with
    | some rest => noWordAfter rest
    | none => false) ||
  (noWordBefore prev &&
    match dropLit (lit "due") cs with
    | some rest1 =>
      match takeWs1 rest1 with
      | some rest2 =>
        match dropLit (lit "today") rest2 with
        | some rest3 => noWordAfter rest3
        | none => false
      | none => false
    | none => false)

/-- Search emulating `re.search` for `\b(due\s+)?today\b`. -/
def hasDueToday (cs : List Char) : Bool :=
  searchFrom none cs dueTodayAt

/-- Consume the optional `["\']?` quote. -/
def dropQuote (cs : List Char) : List Char :=
  match cs with
  | c :: rest => if c == '"' || c == aposC then rest else cs
  | [] => []

/-- After a label trigger word: `\s+["\']?(\w+)`, returning the captured
word (the maximal run of word characters, as the greedy `\w+` captures). -/
def afterTrig (cs : List Char) : Option (List Char) :=
  match cs with
  | c :: rest =>
    if c.isWhitespace then
      if (dropQuote (rest.dropWhile Char.isWhitespace)).takeWhile isWordChar = [] then none
      else some ((dropQuote (rest.dropWhile Char.isWhitespace)).takeWhile isWordChar)
    else none
  | [] => none

/-- One literal trigger alternative followed by the capture tail. -/
def matchTrig (w : List Char) (cs : List Char) : Option (List Char) :=
  match dropLit w cs with
  | some rest => afterTrig rest
  | none => none

/-- The `with\s+label` trigger alternative followed by the capture tail. -/
def matchWithLabel (cs : List Char) : Option (List Char) :=
  match dropLit (lit "with") cs with
  | some r1 =>
    match takeWs1 r1 with
    | some r2 =>
      match dropLit (lit "label") r2 with
      | some r3 => afterTrig r3
      | none => none
    | none => none
  | none => none

/-- Alternation `(?:labeled?|tagged?|with\s+label)` with the capture tail:
the optional final `d` of `labeled?`/`tagged?` is expanded into the
backtracking order longest-first. -/
def tryTrigs (cs : List Char) : Option (List Char) :=
  (matchTrig (lit "labeled") cs).orElse fun _ =>
    (matchTrig (lit "labele") cs).orElse fun _ =>
      (matchTrig (lit "tagged") cs).orElse fun _ =>
        (matchTrig (lit "tagge") cs).orElse fun _ =>
          matchWithLabel cs

/-- Position predicate for the label pattern
`\b(?:labeled?|tagged?|with\s+label)\s+["\']?(\w+)["\']?`: all trigger
alternatives start with a word character, so `\b` is a left boundary
check (the trailing optional quote never affects the captured group). -/
def labelAt (prev : Option Char) (cs : List Char) : Option (List Char) :=
  if noWordBefore prev then tryTrigs cs else none

/-- Leftmost `re.search` returning the first capture. -/
def searchCap (prev : Option Char) (cs : List Char) : Option (List Char) :=
  match cs with
  | [] => labelAt prev []
  | c :: rest =>
    match labelAt prev (c :: rest) with
    | some w => some w
    | none => searchCap (some c) rest

/-- The captured label of the UC-R3 check in `handle_retrieve_mode`. -/
def labelCapture (cs : List Char) : Option (List Char) :=
  searchCap none cs

/-- The filter parameters derived by `handle_retrieve_mode` (lines
222-238): `due_date`, `label` and the display-only `filter_desc`. -/
structure RetrievalFilter where
  due_date : Option String
  label : Option String
  filter_desc : Option String
deriving DecidableEq, Repr

/-- Embedding of `handle_retrieve_mode` lines 219-238 in `app/main.py`: lowercase the
message, set the due filter on a `\b(due\s+)?today\b` match, then set the
label filter (overwriting `filter_desc`) on a label-pattern match. -/
def build_filter (user_message : String) : RetrievalFilter :=
  let message_lower := toLowerL user_message.data
  let due_date : Option String := if hasDueToday message_lower then some "today" else none
  let due_desc : Option String := if hasDueToday message_lower then some "due today" else none
  match labelCapture message_lower with
  | some l =>
    { due_date := due_date
      label := some (String.mk l)
      filter_desc := some ("labeled " ++ aposS ++ String.mk l ++ aposS) }
  | none => { due_date := due_date, label := none, filter_desc := due_desc }


/-! ## Spec-side predicates for the retrieval query builder

These follow the words of the specification (a word-boundary match on
"today"; a quoted or bare word following a trigger word), independently of
the executable searchers above, so that the query-builder claims compare
code against specification rather than restate the code. -/

/-- A word boundary to the left of a match position: the preceding
character, if any, is not a word character. -/
def boundaryL (pre : List Char) : Prop :=
  ∀ c, pre.getLast? = some c → isWordChar c = false

/-- A word boundary to the right of a match: the following character, if
any, is not a word character. -/
def boundaryR (post : List Char) : Prop :=
  ∀ c, post.head? = some c → isWordChar c = false

/-- The text contains a word-boundary match on "today". -/
def TodaySpec (cs : List Char) : Prop :=
  ∃ pre post, cs = pre ++ lit "today" ++ post ∧ boundaryL pre ∧ boundaryR post

/-- The optional quote of the label pattern: absent, double quote, or
apostrophe. -/
def QuoteOpt (q : List Char) : Prop :=
  q = [] ∨ q = ['"'] ∨ q = [aposC]

/-- A trigger of the label pattern, with the final `d` of
`labeled?`/`tagged?` optional and `with\s+label` allowing any whitespace
run. -/
def IsTrig (t : List Char) : Prop :=
  t = lit "labeled" ∨ t = lit "labele" ∨ t = lit "tagged" ∨ t = lit "tagge" ∨
    ∃ ws1, ws1 ≠ [] ∧ (∀ c ∈ ws1, c.isWhitespace = true) ∧
      t = lit "with" ++ ws1 ++ lit "label"

/-- The specification-side reading of the label rule: somewhere in the
text, after a left word boundary, a trigger word is followed by
whitespace, an optional quote, and the (word-character) label `w`. -/
def LabelSpecW (cs w : List Char) : Prop :=
  ∃ pre t ws q tail,
    IsTrig t ∧ boundaryL pre ∧
    ws ≠ [] ∧ (∀ c ∈ ws, c.isWhitespace = true) ∧
    QuoteOpt q ∧
    w ≠ [] ∧ (∀ c ∈ w, isWordChar c = true) ∧
    cs = pre ++ (t ++ (ws ++ (q ++ (w ++ tail))))

/-- Some label is captured somewhere in the text. -/
def LabelSpec (cs : List Char) : Prop := ∃ w, LabelSpecW cs w

/-! ## Substring containment -/

/-- Is the first list a prefix of the second? -/
def isPre : List Char → List Char → Bool
  | [], _ => true
  | _ :: _, [] => false
  | a :: as, b :: bs => a == b && isPre as bs

/-- Does the needle occur as a contiguous run of the haystack? -/
def hasSub (n : List Char) : List Char → Bool
  | [] => isPre n []
  | c :: cs => isPre n (c :: cs) || hasSub n cs

/-- Substring containment on strings. -/
def strContains (hay needle : String) : Bool := hasSub needle.data hay.data

/-! ## Generic lemmas about the matching combinators -/

theorem dropLit_eq_some (w : List Char) :
    ∀ cs r, dropLit w cs = some r ↔ cs = w ++ r := by
  induction w with
  | nil => intro cs r; simp [dropLit]
  | cons a ws ih =>
    intro cs r
    cases cs with
    | nil => simp [dropLit]
    | cons c cs' =>
      cases h : (a == c) with
      | true =>
        have ha : a = c := by simpa using h
        subst ha
        simp [dropLit, ih]
      | false =>
        have ha : ¬ a = c := by simpa using h
        simp only [dropLit, h, List.cons_append]
        constructor
        · intro hc; cases hc
        · intro hc; exact absurd ((List.cons.injEq .. ▸ hc).1.symm) ha

theorem dropLit_self (w r : List Char) : dropLit w (w ++ r) = some r :=
  (dropLit_eq_some w (w ++ r) r).2 rfl

theorem lastO_cons (prev : Option Char) (c : Char) (u : List Char) :
    lastO prev (c :: u) = lastO (some c) u := by
  cases u with
  | nil => simp [lastO]
  | cons d u' =>
    cases h : (d :: u').getLast? with
    | some e => simp [lastO, h]
    | none => simp at h

/-- Characterization: `searchFrom` succeeds exactly when the position predicate holds at some
split of the input, with the character preceding the split supplied. -/
theorem searchFrom_iff (p : Option Char → List Char → Bool) :
    ∀ (cs : List Char) (prev : Option Char),
      searchFrom prev cs p = true ↔
        ∃ u v, cs = u ++ v ∧ p (lastO prev u) v = true := by
  intro cs
  induction cs with
  | nil =>
    intro prev
    constructor
    · intro h; exact ⟨[], [], rfl, h⟩
    · rintro ⟨u, v, huv, hp⟩
      have hu : u = [] := by
        cases u with
        | nil => rfl
        | cons x xs => simp at huv
      subst hu
      have hv : v = [] := by simpa using huv.symm
      subst hv
      simpa [lastO] using hp
  | cons c rest ih =>
    intro prev
    simp only [searchFrom, Bool.or_eq_true]
    constructor
    · rintro (h | h)
      · exact ⟨[], c :: rest, rfl, by simpa [lastO] using h⟩
      · obtain ⟨u, v, huv, hp⟩ := (ih (some c)).1 h
        exact ⟨c :: u, v, by simp [huv], by simpa [lastO_cons] using hp⟩
    · rintro ⟨u, v, huv, hp⟩
      cases u with
      | nil =>
        left
        have hv : v = c :: rest := by simpa using huv.symm
        subst hv
        simpa [lastO] using hp
      | cons x u' =>
        right
        have hx : c = x := by simpa using congrArg List.head? huv
        subst hx
        have hrest : rest = u' ++ v := by simpa using huv
        exact (ih (some c)).2 ⟨u', v, hrest, by simpa [lastO_cons] using hp⟩


theorem isPre_append_self (n v : List Char) : isPre n (n ++ v) = true := by
  induction n with
  | nil => simp [isPre]
  | cons a as ih => simp [isPre, ih]

theorem hasSub_here (n v : List Char) : hasSub n (n ++ v) = true := by
  cases n with
  | nil =>
    cases v with
    | nil => simp [hasSub, isPre]
    | cons c cs => simp [hasSub, isPre]
  | cons a as => simp [hasSub, isPre, isPre_append_self]

theorem hasSub_append_left (n : List Char) :
    ∀ u v, hasSub n v = true → hasSub n (u ++ v) = true := by
  intro u
  induction u with
  | nil => intro v h; simpa using h
  | cons x xs ih =>
    intro v h
    have h2 : hasSub n (xs ++ v) = true := ih v h
    simp [hasSub, h2]

theorem hasSub_decomp (u n v : List Char) : hasSub n (u ++ (n ++ v)) = true :=
  hasSub_append_left n u (n ++ v) (hasSub_here n v)

/-! ## Character-class facts -/

theorem not_word_of_ws (c : Char) (h : c.isWhitespace = true) : isWordChar c = false := by
  simp only [Char.isWhitespace, Bool.or_eq_true, decide_eq_true_eq] at h
  rcases h with ((h | h) | h) | h <;> subst h <;> decide

theorem ws_eq_false_of_word (c : Char) (h : isWordChar c = true) : c.isWhitespace = false := by
  cases hw : c.isWhitespace with
  | false => rfl
  | true => rw [not_word_of_ws c hw] at h; cases h

/-! ## takeWhile and dropWhile facts -/

theorem dropWhile_append_all (p : Char → Bool) :
    ∀ (a b : List Char), (∀ c ∈ a, p c = true) →
      (∀ c, b.head? = some c → p c = false) →
      (a ++ b).dropWhile p = b := by
  intro a
  induction a with
  | nil =>
    intro b _ hb
    cases b with
    | nil => rfl
    | cons c bs => simp [List.dropWhile_cons, hb c rfl]
  | cons x a' ih =>
    intro b ha hb
    have hx : p x = true := ha x (by simp)
    simp [List.dropWhile_cons, hx, ih b (fun c hc => ha c (by simp [hc])) hb]

theorem takeWhile_append_all (p : Char → Bool) :
    ∀ (a b : List Char), (∀ c ∈ a, p c = true) →
      (a ++ b).takeWhile p = a ++ b.takeWhile p := by
  intro a
  induction a with
  | nil => intro b _; rfl
  | cons x a' ih =>
    intro b ha
    have hx : p x = true := ha x (by simp)
    simp [List.takeWhile_cons, hx, ih b (fun c hc => ha c (by simp [hc]))]


theorem noWordBefore_lastO_iff (prev : List Char) :
    noWordBefore (lastO none prev) = true ↔ boundaryL prev := by
  cases h : prev.getLast? with
  | none => simp [lastO, h, noWordBefore, boundaryL]
  | some c => simp [lastO, h, noWordBefore, boundaryL]

theorem noWordAfter_iff (post : List Char) :
    noWordAfter post = true ↔ boundaryR post := by
  cases post with
  | nil => simp [noWordAfter, boundaryR]
  | cons c rest => simp [noWordAfter, boundaryR]

/-- The `\b(due\s+)?today\b` searcher of `handle_retrieve_mode` fires
exactly when the text contains a word-boundary match on "today": the
optional "due" prefix does not change the match set. -/
theorem hasDueToday_iff (cs : List Char) :
    hasDueToday cs = true ↔ TodaySpec cs := by
  constructor
  · intro h
    obtain ⟨u, v, huv, hp⟩ := (searchFrom_iff dueTodayAt cs none).1 h
    simp only [dueTodayAt, Bool.or_eq_true, Bool.and_eq_true] at hp
    rcases hp with hp | hp
    · obtain ⟨hb, hm⟩ := hp
      cases hdl : dropLit (lit "today") v with
      | none => rw [hdl] at hm; cases hm
      | some rest =>
        rw [hdl] at hm
        have hv : v = lit "today" ++ rest := (dropLit_eq_some _ _ _).1 hdl
        refine ⟨u, rest, ?_, (noWordBefore_lastO_iff u).1 hb, (noWordAfter_iff rest).1 hm⟩
        simp [huv, hv, List.append_assoc]
    · obtain ⟨hb, hm⟩ := hp
      cases hdl : dropLit (lit "due") v with
      | none => rw [hdl] at hm; cases hm
      | some rest1 =>
        rw [hdl] at hm
        have hv : v = lit "due" ++ rest1 := (dropLit_eq_some _ _ _).1 hdl
        cases rest1 with
        | nil => simp [takeWs1] at hm
        | cons c0 r =>
          simp only [takeWs1] at hm
          by_cases hws : c0.isWhitespace = true
          · rw [if_pos hws] at hm
            have hm2 : (match dropLit (lit "today") (r.dropWhile Char.isWhitespace) with
                | some rest => noWordAfter rest
                | none => false) = true := hm
            cases hdl2 : dropLit (lit "today") (r.dropWhile Char.isWhitespace) with
            | none => rw [hdl2] at hm2; cases hm2
            | some rest3 =>
              rw [hdl2] at hm2
              have hr2 : r.dropWhile Char.isWhitespace = lit "today" ++ rest3 :=
                (dropLit_eq_some _ _ _).1 hdl2
              have hsplit : r = r.takeWhile Char.isWhitespace ++ r.dropWhile Char.isWhitespace :=
                (List.takeWhile_append_dropWhile ..).symm
              refine ⟨u ++ lit "due" ++ (c0 :: r.takeWhile Char.isWhitespace), rest3, ?_, ?_,
                (noWordAfter_iff rest3).1 hm2⟩
              · rw [huv, hv]
                conv_lhs => rw [hsplit]
                simp [hr2, List.append_assoc]
              · intro c hc
                have hlast : (u ++ lit "due" ++ (c0 :: r.takeWhile Char.isWhitespace)).getLast?
                    = (c0 :: r.takeWhile Char.isWhitespace).getLast? := by
                  rw [List.getLast?_append]
                  cases he : (c0 :: r.takeWhile Char.isWhitespace).getLast? with
                  | none => simp at he
                  | some e => rfl
                rw [hlast] at hc
                have hmem : c ∈ c0 :: r.takeWhile Char.isWhitespace :=
                  List.mem_of_getLast?_eq_some hc
                have hcw : c.isWhitespace = true := by
                  rcases List.mem_cons.1 hmem with h0 | h0
                  · subst h0; exact hws
                  · exact List.mem_takeWhile_imp h0
                exact not_word_of_ws c hcw
          · rw [if_neg hws] at hm; cases hm
  · rintro ⟨pre, post, hcs, hbl, hbr⟩
    refine (searchFrom_iff dueTodayAt cs none).2 ⟨pre, lit "today" ++ post, ?_, ?_⟩
    · simp [hcs, List.append_assoc]
    · simp only [dueTodayAt, Bool.or_eq_true, Bool.and_eq_true]
      left
      exact ⟨(noWordBefore_lastO_iff pre).2 hbl, by
        rw [dropLit_self]
        exact (noWordAfter_iff post).2 hbr⟩


theorem quote_beq_false (c : Char) (h : isWordChar c = true) :
    (c == '"' || c == aposC) = false := by
  cases h1 : (c == '"') with
  | true =>
    have hc : c = '"' := by simpa using h1
    subst hc; exact absurd h (by decide)
  | false =>
    cases h2 : (c == aposC) with
    | true =>
      have hc : c = aposC := by simpa using h2
      subst hc; exact absurd h (by decide)
    | false => simp [h1, h2]

theorem dropQuote_cons (d : Char) (bs : List Char) :
    dropQuote (d :: bs) = if (d == '"' || d == aposC) = true then bs else d :: bs := rfl

theorem afterTrig_cons (c : Char) (r : List Char) :
    afterTrig (c :: r) =
      if c.isWhitespace then
        (if (dropQuote (r.dropWhile Char.isWhitespace)).takeWhile isWordChar = [] then none
         else some ((dropQuote (r.dropWhile Char.isWhitespace)).takeWhile isWordChar))
      else none := rfl

theorem afterTrig_some (rest w : List Char) (h : afterTrig rest = some w) :
    ∃ ws q tail, ws ≠ [] ∧ (∀ c ∈ ws, c.isWhitespace = true) ∧
      QuoteOpt q ∧ w ≠ [] ∧ (∀ c ∈ w, isWordChar c = true) ∧
      rest = ws ++ (q ++ (w ++ tail)) := by
  cases rest with
  | nil => simp [afterTrig] at h
  | cons c r =>
    rw [afterTrig_cons] at h
    by_cases hws : c.isWhitespace = true
    · rw [if_pos hws] at h
      by_cases hw0 : (dropQuote (r.dropWhile Char.isWhitespace)).takeWhile isWordChar = []
      · rw [if_pos hw0] at h; cases h
      · rw [if_neg hw0] at h
        have hw : w = (dropQuote (r.dropWhile Char.isWhitespace)).takeWhile isWordChar := by
          injection h with h2; exact h2.symm
        have hrsplit : r = r.takeWhile Char.isWhitespace ++ r.dropWhile Char.isWhitespace :=
          (List.takeWhile_append_dropWhile ..).symm
        have hwsall : ∀ x ∈ c :: r.takeWhile Char.isWhitespace, x.isWhitespace = true := by
          intro x hx
          rcases List.mem_cons.1 hx with h0 | h0
          · subst h0; exact hws
          · exact List.mem_takeWhile_imp h0
        cases hbw : r.dropWhile Char.isWhitespace with
        | nil =>
          rw [hbw] at hw0
          simp [dropQuote] at hw0
        | cons d bs =>
          rw [hbw] at hw
          rw [dropQuote_cons] at hw
          by_cases hd : (d == '"' || d == aposC) = true
          · rw [if_pos hd] at hw
            refine ⟨c :: r.takeWhile Char.isWhitespace, [d], bs.dropWhile isWordChar,
              by simp, hwsall, ?_, ?_, ?_, ?_⟩
            · rcases Bool.or_eq_true .. ▸ hd with h1 | h1
              · have hde : d = '"' := by simpa using h1
                subst hde; right; left; rfl
              · have hde : d = aposC := by simpa using h1
                subst hde; right; right; rfl
            · rw [hw]
              rw [hbw, dropQuote_cons, if_pos hd] at hw0
              exact hw0
            · intro x hx
              rw [hw] at hx; exact List.mem_takeWhile_imp hx
            · rw [hw]
              rw [List.cons_append, List.singleton_append]
              conv_lhs => rw [hrsplit, hbw]
              simp [List.takeWhile_append_dropWhile]
          · rw [if_neg hd] at hw
            refine ⟨c :: r.takeWhile Char.isWhitespace, [], (d :: bs).dropWhile isWordChar,
              by simp, hwsall, Or.inl rfl, ?_, ?_, ?_⟩
            · rw [hw]
              rw [hbw, dropQuote_cons, if_neg hd] at hw0
              exact hw0
            · intro x hx
              rw [hw] at hx; exact List.mem_takeWhile_imp hx
            · rw [hw]
              rw [List.cons_append, List.nil_append]
              conv_lhs => rw [hrsplit, hbw]
              simp [List.takeWhile_append_dropWhile]
    · rw [if_neg hws] at h; cases h

theorem afterTrig_isSome (ws q w tail : List Char)
    (hws : ws ≠ []) (hallws : ∀ c ∈ ws, c.isWhitespace = true)
    (hq : QuoteOpt q) (hw : w ≠ []) (hallw : ∀ c ∈ w, isWordChar c = true) :
    (afterTrig (ws ++ (q ++ (w ++ tail)))).isSome = true := by
  cases ws with
  | nil => exact absurd rfl hws
  | cons c ws' =>
    have hc : c.isWhitespace = true := hallws c (by simp)
    cases w with
    | nil => exact absurd rfl hw
    | cons w0 w' =>
      have hw0 : isWordChar w0 = true := hallw w0 (by simp)
      have hdrop : (ws' ++ (q ++ (w0 :: (w' ++ tail)))).dropWhile Char.isWhitespace
          = q ++ (w0 :: (w' ++ tail)) := by
        apply dropWhile_append_all
        · intro x hx; exact hallws x (by simp [hx])
        · intro x hx
          rcases hq with hq | hq | hq <;> subst hq
          · simp only [List.nil_append, List.head?_cons, Option.some.injEq] at hx
            subst hx; exact ws_eq_false_of_word _ hw0
          · simp only [List.singleton_append, List.head?_cons, Option.some.injEq] at hx
            subst hx; decide
          · simp only [List.singleton_append, List.head?_cons, Option.some.injEq] at hx
            subst hx; decide
      have hquote : dropQuote (q ++ (w0 :: (w' ++ tail))) = w0 :: (w' ++ tail) := by
        rcases hq with hq | hq | hq <;> subst hq
        · rw [List.nil_append, dropQuote_cons, if_neg]
          rw [quote_beq_false w0 hw0]
          simp
        · rw [List.singleton_append, dropQuote_cons, if_pos (by decide)]
        · rw [List.singleton_append, dropQuote_cons, if_pos (by decide)]
      have htake : (w0 :: (w' ++ tail)).takeWhile isWordChar
          = w0 :: (w' ++ tail.takeWhile isWordChar) := by
        have h2 := takeWhile_append_all isWordChar (w0 :: w') tail hallw
        simpa using h2
      have hgoal : (c :: ws') ++ (q ++ ((w0 :: w') ++ tail))
          = c :: (ws' ++ (q ++ (w0 :: (w' ++ tail)))) := by simp
      rw [hgoal, afterTrig_cons, if_pos hc, hdrop, hquote, htake]
      simp

theorem matchTrig_some (t cs w : List Char) (h : matchTrig t cs = some w) :
    ∃ rest, cs = t ++ rest ∧ afterTrig rest = some w := by
  unfold matchTrig at h
  cases hdl : dropLit t cs with
  | none => rw [hdl] at h; cases h
  | some rest => rw [hdl] at h; exact ⟨rest, (dropLit_eq_some ..).1 hdl, h⟩

theorem matchTrig_isSome (t rest : List Char) (h : (afterTrig rest).isSome = true) :
    (matchTrig t (t ++ rest)).isSome = true := by
  unfold matchTrig
  rw [dropLit_self]
  exact h

theorem matchWithLabel_some (cs w : List Char) (h : matchWithLabel cs = some w) :
    ∃ ws1 rest, ws1 ≠ [] ∧ (∀ c ∈ ws1, c.isWhitespace = true) ∧
      cs = (lit "with" ++ ws1 ++ lit "label") ++ rest ∧ afterTrig rest = some w := by
  unfold matchWithLabel at h
  cases hdl : dropLit (lit "with") cs with
  | none => rw [hdl] at h; cases h
  | some r1 =>
    rw [hdl] at h
    cases r1 with
    | nil => simp [takeWs1] at h
    | cons c r =>
      simp only [takeWs1] at h
      by_cases hws : c.isWhitespace = true
      · rw [if_pos hws] at h
        have h2 : (match dropLit (lit "label") (r.dropWhile Char.isWhitespace) with
            | some r3 => afterTrig r3
            | none => none) = some w := h
        cases hdl2 : dropLit (lit "label") (r.dropWhile Char.isWhitespace) with
        | none => rw [hdl2] at h2; cases h2
        | some r3 =>
          rw [hdl2] at h2
          refine ⟨c :: r.takeWhile Char.isWhitespace, r3, by simp, ?_, ?_, h2⟩
          · intro x hx
            rcases List.mem_cons.1 hx with h0 | h0
            · subst h0; exact hws
            · exact List.mem_takeWhile_imp h0
          · have hcs : cs = lit "with" ++ (c :: r) := (dropLit_eq_some ..).1 hdl
            have hr : r = r.takeWhile Char.isWhitespace ++ r.dropWhile Char.isWhitespace :=
              (List.takeWhile_append_dropWhile ..).symm
            have hr2 : r.dropWhile Char.isWhitespace = lit "label" ++ r3 :=
              (dropLit_eq_some ..).1 hdl2
            rw [hcs]
            conv_lhs => rw [hr, hr2]
            simp
      · rw [if_neg hws] at h; cases h

theorem matchWithLabel_isSome (ws1 rest : List Char)
    (hne : ws1 ≠ []) (hall : ∀ c ∈ ws1, c.isWhitespace = true)
    (h : (afterTrig rest).isSome = true) :
    (matchWithLabel ((lit "with" ++ ws1 ++ lit "label") ++ rest)).isSome = true := by
  unfold matchWithLabel
  have hshape : (lit "with" ++ ws1 ++ lit "label") ++ rest
      = lit "with" ++ (ws1 ++ (lit "label" ++ rest)) := by simp
  rw [hshape, dropLit_self]
  cases ws1 with
  | nil => exact absurd rfl hne
  | cons c ws' =>
    have hc : c.isWhitespace = true := hall c (by simp)
    have hdw : (ws' ++ (lit "label" ++ rest)).dropWhile Char.isWhitespace
        = lit "label" ++ rest := by
      apply dropWhile_append_all
      · intro x hx; exact hall x (by simp [hx])
      · intro x hx
        have hxl : 'l' = x := by simpa [lit] using hx
        subst hxl; decide
    have hcons : (c :: ws') ++ (lit "label" ++ rest) = c :: (ws' ++ (lit "label" ++ rest)) := by
      simp
    rw [hcons]
    simp only [takeWs1, hc, if_true]
    rw [hdw, dropLit_self]
    exact h

theorem tryTrigs_some (cs w : List Char) (h : tryTrigs cs = some w) :
    matchTrig (lit "labeled") cs = some w ∨ matchTrig (lit "labele") cs = some w ∨
    matchTrig (lit "tagged") cs = some w ∨ matchTrig (lit "tagge") cs = some w ∨
    matchWithLabel cs = some w := by
  unfold tryTrigs at h
  cases h1 : matchTrig (lit "labeled") cs with
  | some w1 => rw [h1] at h; simp only [Option.orElse] at h; exact Or.inl h
  | none =>
    rw [h1] at h; simp only [Option.orElse] at h
    cases h2 : matchTrig (lit "labele") cs with
    | some w2 => rw [h2] at h; simp only [Option.orElse] at h; exact Or.inr (Or.inl h)
    | none =>
      rw [h2] at h; simp only [Option.orElse] at h
      cases h3 : matchTrig (lit "tagged") cs with
      | some w3 =>
        rw [h3] at h; simp only [Option.orElse] at h
        exact Or.inr (Or.inr (Or.inl h))
      | none =>
        rw [h3] at h; simp only [Option.orElse] at h
        cases h4 : matchTrig (lit "tagge") cs with
        | some w4 =>
          rw [h4] at h; simp only [Option.orElse] at h
          exact Or.inr (Or.inr (Or.inr (Or.inl h)))
        | none =>
          rw [h4] at h; simp only [Option.orElse] at h
          exact Or.inr (Or.inr (Or.inr (Or.inr h)))

theorem tryTrigs_isSome (cs : List Char)
    (h : (matchTrig (lit "labeled") cs).isSome = true ∨
         (matchTrig (lit "labele") cs).isSome = true ∨
         (matchTrig (lit "tagged") cs).isSome = true ∨
         (matchTrig (lit "tagge") cs).isSome = true ∨
         (matchWithLabel cs).isSome = true) :
    (tryTrigs cs).isSome = true := by
  unfold tryTrigs
  cases h1 : matchTrig (lit "labeled") cs with
  | some w1 => simp [Option.orElse]
  | none =>
    simp only [Option.orElse]
    cases h2 : matchTrig (lit "labele") cs with
    | some w2 => simp [Option.orElse]
    | none =>
      simp only [Option.orElse]
      cases h3 : matchTrig (lit "tagged") cs with
      | some w3 => simp [Option.orElse]
      | none =>
        simp only [Option.orElse]
        cases h4 : matchTrig (lit "tagge") cs with
        | some w4 => simp [Option.orElse]
        | none =>
          simp only [Option.orElse]
          rcases h with h | h | h | h | h
          · rw [h1] at h; cases h
          · rw [h2] at h; cases h
          · rw [h3] at h; cases h
          · rw [h4] at h; cases h
          · exact h

theorem labelAt_some (prev : Option Char) (cs w : List Char)
    (h : labelAt prev cs = some w) :
    noWordBefore prev = true ∧
      ∃ t rest, IsTrig t ∧ cs = t ++ rest ∧ afterTrig rest = some w := by
  unfold labelAt at h
  by_cases hb : noWordBefore prev = true
  · rw [if_pos hb] at h
    refine ⟨hb, ?_⟩
    rcases tryTrigs_some cs w h with h1 | h1 | h1 | h1 | h1
    · obtain ⟨rest, hcs, ha⟩ := matchTrig_some _ _ _ h1
      exact ⟨lit "labeled", rest, Or.inl rfl, hcs, ha⟩
    · obtain ⟨rest, hcs, ha⟩ := matchTrig_some _ _ _ h1
      exact ⟨lit "labele", rest, Or.inr (Or.inl rfl), hcs, ha⟩
    · obtain ⟨rest, hcs, ha⟩ := matchTrig_some _ _ _ h1
      exact ⟨lit "tagged", rest, Or.inr (Or.inr (Or.inl rfl)), hcs, ha⟩
    · obtain ⟨rest, hcs, ha⟩ := matchTrig_some _ _ _ h1
      exact ⟨lit "tagge", rest, Or.inr (Or.inr (Or.inr (Or.inl rfl))), hcs, ha⟩
    · obtain ⟨ws1, rest, hne, hall, hcs, ha⟩ := matchWithLabel_some _ _ h1
      exact ⟨lit "with" ++ ws1 ++ lit "label", rest,
        Or.inr (Or.inr (Or.inr (Or.inr ⟨ws1, hne, hall, rfl⟩))), hcs, ha⟩
  · rw [if_neg hb] at h; cases h

theorem labelAt_isSome (prev : Option Char) (t rest : List Char)
    (hb : noWordBefore prev = true) (ht : IsTrig t)
    (h : (afterTrig rest).isSome = true) :
    (labelAt prev (t ++ rest)).isSome = true := by
  unfold labelAt
  rw [if_pos hb]
  apply tryTrigs_isSome
  rcases ht with h1 | h1 | h1 | h1 | ⟨ws1, hne, hall, h1⟩
  · subst h1; exact Or.inl (matchTrig_isSome _ _ h)
  · subst h1; exact Or.inr (Or.inl (matchTrig_isSome _ _ h))
  · subst h1; exact Or.inr (Or.inr (Or.inl (matchTrig_isSome _ _ h)))
  · subst h1; exact Or.inr (Or.inr (Or.inr (Or.inl (matchTrig_isSome _ _ h))))
  · subst h1
    exact Or.inr (Or.inr (Or.inr (Or.inr (matchWithLabel_isSome ws1 rest hne hall h))))

theorem searchCap_some :
    ∀ (cs : List Char) (prev : Option Char) (w : List Char),
      searchCap prev cs = some w →
      ∃ u v, cs = u ++ v ∧ labelAt (lastO prev u) v = some w := by
  intro cs
  induction cs with
  | nil =>
    intro prev w h
    exact ⟨[], [], rfl, by simpa [lastO] using h⟩
  | cons c rest ih =>
    intro prev w h
    unfold searchCap at h
    cases h1 : labelAt prev (c :: rest) with
    | some w1 =>
      rw [h1] at h
      injection h with h2
      exact ⟨[], c :: rest, rfl, by simpa [lastO, h2] using h1⟩
    | none =>
      rw [h1] at h
      obtain ⟨u, v, huv, hp⟩ := ih (some c) w h
      exact ⟨c :: u, v, by simp [huv], by simpa [lastO_cons] using hp⟩

theorem searchCap_isSome_of :
    ∀ (u : List Char) (prev : Option Char) (v : List Char),
      (labelAt (lastO prev u) v).isSome = true →
      (searchCap prev (u ++ v)).isSome = true := by
  intro u
  induction u with
  | nil =>
    intro prev v h
    have h' : (labelAt prev v).isSome = true := h
    cases v with
    | nil => simpa [searchCap] using h'
    | cons c rest =>
      simp only [List.nil_append]
      unfold searchCap
      cases h1 : labelAt prev (c :: rest) with
      | some w1 => simp
      | none => rw [h1] at h'; cases h'
  | cons c u' ih =>
    intro prev v h
    simp only [List.cons_append]
    unfold searchCap
    cases h1 : labelAt prev (c :: (u' ++ v)) with
    | some w1 => simp
    | none =>
      have h2 : (labelAt (lastO (some c) u') v).isSome = true := by
        rw [← lastO_cons prev c u']; exact h
      exact ih (some c) v h2

/-- The label searcher of `handle_retrieve_mode` captures `w` only at a
position described by the specification-side label rule. -/
theorem labelCapture_spec (cs w : List Char) (h : labelCapture cs = some w) :
    LabelSpecW cs w := by
  obtain ⟨u, v, huv, hp⟩ := searchCap_some cs none w h
  obtain ⟨hb, t, rest, ht, hv, ha⟩ := labelAt_some _ _ _ hp
  obtain ⟨ws, q, tail, hwsne, hwsall, hq, hwne, hwall, hrest⟩ := afterTrig_some rest w ha
  refine ⟨u, t, ws, q, tail, ht, (noWordBefore_lastO_iff u).1 hb,
    hwsne, hwsall, hq, hwne, hwall, ?_⟩
  rw [huv, hv, hrest]

/-- Conversely, wherever the specification-side label rule applies, the
label searcher captures some word. -/
theorem labelCapture_isSome (cs w : List Char) (h : LabelSpecW cs w) :
    (labelCapture cs).isSome = true := by
  obtain ⟨pre, t, ws, q, tail, ht, hbl, hwsne, hwsall, hq, hwne, hwall, hcs⟩ := h
  have ha : (afterTrig (ws ++ (q ++ (w ++ tail)))).isSome = true :=
    afterTrig_isSome ws q w tail hwsne hwsall hq hwne hwall
  have hl : (labelAt (lastO none pre) (t ++ (ws ++ (q ++ (w ++ tail))))).isSome = true :=
    labelAt_isSome _ t _ ((noWordBefore_lastO_iff pre).2 hbl) ht ha
  have := searchCap_isSome_of pre none (t ++ (ws ++ (q ++ (w ++ tail)))) hl
  unfold labelCapture
  rw [hcs]
  exact this

theorem build_filter_due (s : String) :
    (build_filter s).due_date =
      if hasDueToday (toLowerL s.data) then some "today" else none := by
  unfold build_filter
  cases hlc : labelCapture (toLowerL s.data) <;> simp [hlc]

theorem build_filter_label (s : String) :
    (build_filter s).label = (labelCapture (toLowerL s.data)).map String.mk := by
  unfold build_filter
  cases hlc : labelCapture (toLowerL s.data) <;> simp [hlc]

theorem baseLine_decomp (t : TaskDict) (hc : t.content = none) :
    ∃ u : List Char, (baseLine t).data = lit "**Untitled task**" ++ u := by
  unfold baseLine
  rw [hc]
  have htitle : (("**" ++ Option.getD none "Untitled task" ++ "**") : String).data
      = lit "**Untitled task**" := by decide
  have hlist : ["**" ++ Option.getD none "Untitled task" ++ "**"] ++ dueParts t ++ labelParts t
      = ("**" ++ Option.getD none "Untitled task" ++ "**") :: (dueParts t ++ labelParts t) := by
    simp
  rw [hlist]
  cases hrest : dueParts t ++ labelParts t with
  | nil => exact ⟨[], by decide⟩
  | cons y ys =>
    refine ⟨lit " · " ++ (joinSep " · " (y :: ys)).data, ?_⟩
    show ((("**" ++ Option.getD none "Untitled task" ++ "**") ++ " · "
        ++ joinSep " · " (y :: ys))).data = _
    simp [String.data_append, htitle, lit, List.append_assoc]

theorem formatLine_decomp (t : TaskDict) (hc : t.content = none) :
    ∃ u : List Char, (formatLine t).data = lit "**Untitled task**" ++ u := by
  obtain ⟨u, hu⟩ := baseLine_decomp t hc
  unfold formatLine
  cases hb : build_task_url (some t) with
  | some link =>
    refine ⟨u ++ (" · [View in Todoist](" ++ link ++ ")").data, ?_⟩
    simp [String.data_append, hu, List.append_assoc]
  | none => exact ⟨u, hu⟩

theorem joinSep_mem_decomp (f : TaskDict → String) :
    ∀ (ts : List TaskDict) (t : TaskDict), t ∈ ts →
      ∃ a b : List Char,
        (joinSep "\n" (ts.map fun x => "- " ++ f x)).data = a ++ ((f t).data ++ b) := by
  intro ts
  induction ts with
  | nil => intro t ht; cases ht
  | cons hd tl ih =>
    intro t ht
    cases tl with
    | nil =>
      have hht : t = hd := by simpa using ht
      subst hht
      refine ⟨lit "- ", [], ?_⟩
      show (("- " ++ f t) : String).data = _
      simp [String.data_append, lit]
    | cons y ys =>
      rcases List.mem_cons.1 ht with h0 | h0
      · subst h0
        refine ⟨lit "- ", lit "\n" ++ (joinSep "\n" ((y :: ys).map fun x => "- " ++ f x)).data, ?_⟩
        show (("- " ++ f t) ++ "\n" ++ joinSep "\n" ((y :: ys).map fun x => "- " ++ f x)).data = _
        simp [String.data_append, lit, List.append_assoc]
      · obtain ⟨a, b, hab⟩ := ih t h0
        refine ⟨lit "- " ++ (f hd).data ++ lit "\n" ++ a, b, ?_⟩
        show (("- " ++ f hd) ++ "\n" ++ joinSep "\n" ((y :: ys).map fun x => "- " ++ f x)).data = _
        rw [String.data_append, hab]
        simp [String.data_append, lit, List.append_assoc]

/-! ## Claim theorems -/

/-- C1 counterexample: the input "my tasks add" contains the creation
imperative "add" (as a word-boundary match and as a substring), yet
`detect_mode` classifies it RETRIEVE, not CREATE: the first CREATE pattern
is anchored at the start of the message and the second requires a task
noun after the verb, so a trailing "add" matches neither, while the
possessive "my tasks" matches a RETRIEVE pattern. -/
theorem claim1_counterexample :
    searchWord [lit "add"] true (lit "my tasks add") = true ∧
    strContains "my tasks add" "add" = true ∧
    detect_mode "my tasks add" = Mode.RETRIEVE ∧
    detect_mode "my tasks add" ≠ Mode.CREATE := by decide

/-- C1 (amended): for every input whose stripped, lowercased text matches a
CREATE pattern (an imperative at the start of the message, or
add/create/remind me later followed by task/todo/to-do/list) and matches
no CHAT pattern, `detect_mode` returns CREATE — the CREATE check precedes
the RETRIEVE check, so such an input is never classified RETRIEVE. -/
theorem claim1_create_precedence (s : String)
    (h1 : chatMatch (toLowerL (trimL s.data)) = false)
    (h2 : createMatch (toLowerL (trimL s.data)) = true) :
    detect_mode s = Mode.CREATE := by
  have hne : ¬ trimL s.data = [] := by
    intro h0
    rw [h0] at h2
    exact absurd h2 (by decide)
  unfold detect_mode
  rw [if_neg hne]
  simp [h1, h2]

/-- C1 witness: "add buy milk to my list" matches a CREATE pattern, no CHAT
pattern, and is classified CREATE. -/
theorem claim1_witness : detect_mode "add buy milk to my list" = Mode.CREATE :=
  claim1_create_precedence "add buy milk to my list" (by decide) (by decide)

/-- C2: "My task is to finish the report" is CREATE while "my tasks" is
RETRIEVE; the possessive pattern matches "my tasks", and the
negative-lookahead pattern accepts "my task" alone but rejects it when
" is" follows. -/
theorem claim2_lookahead_boundary :
    detect_mode "My task is to finish the report" = Mode.CREATE ∧
    detect_mode "my tasks" = Mode.RETRIEVE ∧
    retr3 (lit "my tasks") = true ∧
    retr4 (lit "my task") = true ∧
    retr4 (lit "my task is to finish the report") = false := by decide

/-- C3: `detect_mode` is a total function returning one of the three modes
on every string, and input that strips to nothing (empty or
all-whitespace) yields CHAT.  As a pure Lean function it performs no
external calls and cannot raise. -/
theorem claim3_classifier_total (s : String) :
    (detect_mode s = Mode.CHAT ∨ detect_mode s = Mode.CREATE ∨ detect_mode s = Mode.RETRIEVE)
    ∧ (trimL s.data = [] → detect_mode s = Mode.CHAT) := by
  constructor
  · cases h : detect_mode s with
    | CHAT => exact Or.inl rfl
    | CREATE => exact Or.inr (Or.inl rfl)
    | RETRIEVE => exact Or.inr (Or.inr rfl)
  · intro h
    unfold detect_mode
    rw [if_pos h]

/-- C3 witness: whitespace-only input is classified CHAT. -/
theorem claim3_witness : detect_mode "  \t " = Mode.CHAT :=
  (claim3_classifier_total "  \t ").2 (by decide)

/-- C4: extraction fails closed: for every service response that is
malformed, missing `content`, or carrying an explicit `priority` outside
[1,4], `parse_task` returns the single `ValueError` built from the
offending detail — no retry, no default substituted for `content`. -/
theorem claim4_extraction_fails_closed (out : RawOutput)
    (h : (∃ raw, out = RawOutput.malformed raw) ∨
         (∃ r, out = RawOutput.obj r ∧ r.content = none) ∨
         (∃ r p, out = RawOutput.obj r ∧ r.priority = some p ∧ (p < 1 ∨ 4 < p))) :
    ∃ d, parse_task out = Except.error (failMsg d) := by
  rcases h with ⟨raw, h⟩ | ⟨r, h, hc⟩ | ⟨r, p, h, hp, hrange⟩
  · subst h; exact ⟨"Invalid json output: " ++ raw, rfl⟩
  · subst h
    exact ⟨"content: Field required", by simp [parse_task, validateTask, hc]⟩
  · subst h
    cases hc : r.content with
    | none =>
      exact ⟨"content: Field required", by simp [parse_task, validateTask, hc]⟩
    | some c =>
      by_cases h1 : p < 1
      · exact ⟨"priority: Input should be greater than or equal to 1, got " ++ toString p,
          by simp [parse_task, validateTask, hc, hp, h1]⟩
      · have h2 : 4 < p := by
          rcases hrange with h0 | h0
          · exact absurd h0 h1
          · exact h0
        exact ⟨"priority: Input should be less than or equal to 4, got " ++ toString p,
          by simp [parse_task, validateTask, hc, hp, h1, h2]⟩

/-- C4 witness: a response without `content` produces the parse error. -/
theorem claim4_witness :
    ∃ d, parse_task (RawOutput.obj ⟨none, none, none, none, none, none⟩)
      = Except.error (failMsg d) :=
  claim4_extraction_fails_closed _ (Or.inr (Or.inl ⟨_, rfl, rfl⟩))

/-- C5 counterexample: a response whose `content` is present but EMPTY
passes validation — the extraction succeeds and yields a Task Record with
empty `content`, so the "content is a non-empty string" invariant does not
hold in the code (only presence of the field is validated). -/
theorem claim5_counterexample :
    parse_task (RawOutput.obj ⟨some "", none, none, none, none, none⟩)
      = Except.ok (⟨"", some "", 3, none, [], none⟩ : TodoistTask)
    ∧ ((⟨"", some "", 3, none, [], none⟩ : TodoistTask)).content = "" := ⟨rfl, rfl⟩

/-- C5 (amended): every Task Record produced by a successful extraction has
`priority` in [1,4], and its `content` is exactly the string supplied by
the response (required and never defaulted); emptiness of `content`,
however, is not checked. -/
theorem claim5_record_invariant (out : RawOutput) (t : TodoistTask)
    (h : parse_task out = Except.ok t) :
    (1 ≤ t.priority ∧ t.priority ≤ 4) ∧
      ∃ r, out = RawOutput.obj r ∧ r.content = some t.content := by
  cases out with
  | malformed raw => simp [parse_task] at h
  | obj r =>
    cases hc : r.content with
    | none => simp [parse_task, validateTask, hc] at h
    | some c =>
      simp only [parse_task, validateTask, hc] at h
      by_cases h1 : r.priority.getD 3 < 1
      · rw [if_pos h1] at h; simp at h
      · rw [if_neg h1] at h
        by_cases h2 : 4 < r.priority.getD 3
        · rw [if_pos h2] at h; simp at h
        · rw [if_neg h2] at h
          have ht : t = (⟨c, r.description.getD (some ""), r.priority.getD 3,
              r.due_string.getD none, r.labels.getD [], r.project_id.getD none⟩ : TodoistTask) := by
            have h3 : (Except.ok ⟨c, r.description.getD (some ""), r.priority.getD 3,
                r.due_string.getD none, r.labels.getD [], r.project_id.getD none⟩
                : Except String TodoistTask) = Except.ok t := h
            injection h3 with h4
            exact h4.symm
          subst ht
          refine ⟨⟨?_, ?_⟩, r, rfl, hc⟩
          · show (1 : Int) ≤ r.priority.getD 3
            omega
          · show r.priority.getD 3 ≤ (4 : Int)
            omega

/-- C5 witness: a well-formed response with priority 2 yields a record
within bounds whose content comes from the response. -/
theorem claim5_witness :
    (1 ≤ ((⟨"x", some "", 2, none, [], none⟩ : TodoistTask)).priority ∧
      ((⟨"x", some "", 2, none, [], none⟩ : TodoistTask)).priority ≤ 4) ∧
    ∃ r, RawOutput.obj ⟨some "x", none, some 2, none, none, none⟩ = RawOutput.obj r ∧
      r.content = some ((⟨"x", some "", 2, none, [], none⟩ : TodoistTask)).content :=
  claim5_record_invariant _ _ rfl

/-- C6: a well-formed response supplying only `content` yields exactly the
documented defaults: empty description, priority 3, no due expression,
empty labels (and no project). -/
theorem claim6_minimal_defaults (c : String) :
    parse_task (RawOutput.obj ⟨some c, none, none, none, none, none⟩)
      = Except.ok (⟨c, some "", 3, none, [], none⟩ : TodoistTask) := rfl

/-- C7: an empty task list with filter description "due today" renders an
empty-state message containing the literal text "No tasks found due
today"; a non-empty list renders a header that carries the literal count
and the word "item" exactly when the count is 1, "items" otherwise (the
header is exhibited as the count and item word spliced between fixed
fragments). -/
theorem claim7_listing_rendering :
    strContains (format_task_list [] (some "due today")) "No tasks found due today" = true
    ∧ ∀ (ts : List TaskDict) (fd : Option String), ts ≠ [] →
        ∃ rest, format_task_list ts fd =
          (if fdTruthy fd then "### Tasks " ++ fd.getD "" ++ " (" else "### Your Tasks (")
          ++ toString ts.length ++ " "
          ++ (if ts.length = 1 then "item" else "items")
          ++ ")\n\n" ++ rest := by
  constructor
  · decide
  · intro ts fd hne
    cases ts with
    | nil => exact absurd rfl hne
    | cons t ts' =>
      refine ⟨joinSep "\n" ((t :: ts').map fun x => "- " ++ formatLine x), ?_⟩
      show headerFor fd (t :: ts').length
          ++ joinSep "\n" ((t :: ts').map fun x => "- " ++ formatLine x) = _
      apply String.ext
      by_cases hfd : fdTruthy fd = true <;>
        simp [headerFor, hfd, String.data_append, List.append_assoc]

/-- C7 witness: a one-task listing without filter uses "(1 item)". -/
theorem claim7_witness :
    ∃ rest, format_task_list [⟨none, some "Review PR", none, [], none⟩] none =
      (if fdTruthy none then "### Tasks " ++ Option.getD none "" ++ " (" else "### Your Tasks (")
      ++ toString ([(⟨none, some "Review PR", none, [], none⟩ : TaskDict)]).length ++ " "
      ++ (if ([(⟨none, some "Review PR", none, [], none⟩ : TaskDict)]).length = 1
          then "item" else "items")
      ++ ")\n\n" ++ rest :=
  claim7_listing_rendering.2 [⟨none, some "Review PR", none, [], none⟩] none (by simp)

/-- C8: a task line with a non-empty `url` field links using exactly that
URL; with no usable `url` but a truthy `id` it links via the fixed
template URL built from the id; with neither, the line is exactly the
linkless base line. -/
theorem claim8_link_rendering (t : TaskDict) :
    (∀ u, t.url = some u → u ≠ "" →
      formatLine t = baseLine t ++ " · [View in Todoist](" ++ u ++ ")")
    ∧ (t.url.getD "" = "" → ∀ i, t.id = some i → i ≠ "" →
      formatLine t = baseLine t ++ " · [View in Todoist]("
        ++ ("https://app.todoist.com/app/task/" ++ i) ++ ")")
    ∧ (t.url.getD "" = "" → t.id.getD "" = "" → formatLine t = baseLine t) := by
  have hbdef : build_task_url (some t) =
      (if t.url.getD "" != "" then t.url
       else match t.id with
         | some i => if i != "" then some ("https://app.todoist.com/app/task/" ++ i) else none
         | none => none) := rfl
  refine ⟨?_, ?_, ?_⟩
  · intro u hu hune
    have hcond : (t.url.getD "" != "") = true := by rw [hu]; simpa using hune
    have hb : build_task_url (some t) = some u := by
      rw [hbdef, if_pos hcond, hu]
    show (match build_task_url (some t) with
      | some link => baseLine t ++ " · [View in Todoist](" ++ link ++ ")"
      | none => baseLine t) = _
    rw [hb]
  · intro hu0 i hi hine
    have hcn : ¬ ((t.url.getD "" != "") = true) := by simp [hu0]
    have hcond2 : (i != "") = true := by simpa using hine
    have hb : build_task_url (some t) = some ("https://app.todoist.com/app/task/" ++ i) := by
      rw [hbdef, if_neg hcn, hi]
      show (if i != "" then some ("https://app.todoist.com/app/task/" ++ i) else none) = _
      rw [if_pos hcond2]
    show (match build_task_url (some t) with
      | some link => baseLine t ++ " · [View in Todoist](" ++ link ++ ")"
      | none => baseLine t) = _
    rw [hb]
  · intro hu0 hid0
    have hcn : ¬ ((t.url.getD "" != "") = true) := by simp [hu0]
    have hb : build_task_url (some t) = none := by
      rw [hbdef, if_neg hcn]
      cases hid : t.id with
      | none => rfl
      | some i =>
        have hie : i = "" := by simpa [hid] using hid0
        subst hie
        show (if ("" : String) != "" then some ("https://app.todoist.com/app/task/" ++ "")
          else none) = none
        simp
    show (match build_task_url (some t) with
      | some link => baseLine t ++ " · [View in Todoist](" ++ link ++ ")"
      | none => baseLine t) = baseLine t
    rw [hb]

/-- C8 witness: each of the three link cases at a concrete task. -/
theorem claim8_witness :
    formatLine ⟨some "1", some "A", none, [], some "https://e.x/t"⟩
      = baseLine ⟨some "1", some "A", none, [], some "https://e.x/t"⟩
        ++ " · [View in Todoist](" ++ "https://e.x/t" ++ ")" ∧
    formatLine ⟨some "12345", some "B", none, [], none⟩
      = baseLine ⟨some "12345", some "B", none, [], none⟩
        ++ " · [View in Todoist](" ++ ("https://app.todoist.com/app/task/" ++ "12345") ++ ")" ∧
    formatLine ⟨none, some "C", none, [], none⟩ = baseLine ⟨none, some "C", none, [], none⟩ :=
  ⟨(claim8_link_rendering ⟨some "1", some "A", none, [], some "https://e.x/t"⟩).1
      "https://e.x/t" rfl (by decide),
   (claim8_link_rendering ⟨some "12345", some "B", none, [], none⟩).2.1
      rfl "12345" rfl (by decide),
   (claim8_link_rendering ⟨none, some "C", none, [], none⟩).2.2 rfl rfl⟩

/-- C9 counterexample: the input "tasks tagge home" sets the label filter
to "home" although the text contains none of "labeled", "tagged" or
"with label": the regex leaves the final `d` of `labeled?`/`tagged?`
optional, so "tagge" (and "labele") also trigger the rule, refuting the
claimed "exactly when". -/
theorem claim9_counterexample :
    (build_filter "tasks tagge home").label = some "home" ∧
    strContains "tasks tagge home" "labeled" = false ∧
    strContains "tasks tagge home" "tagged" = false ∧
    strContains "tasks tagge home" "with label" = false := by decide

/-- C9 (amended): the query builder is total and applies its two rules
independently: the due filter is set exactly when the lowercased text
contains a word-boundary match on "today" (the optional preceding "due"
does not change the match set), and the label filter is set to a captured
word exactly when a quoted or bare word follows one of the triggers
"labeled", "labele", "tagged", "tagge" (final `d` optional) or
"with label" after a left word boundary. -/
theorem claim9_filter_rules (s : String) :
    ((build_filter s).due_date = some "today" ↔ TodaySpec (toLowerL s.data))
    ∧ ((build_filter s).due_date = none ↔ ¬ TodaySpec (toLowerL s.data))
    ∧ (∀ w : String, (build_filter s).label = some w → LabelSpecW (toLowerL s.data) w.data)
    ∧ ((build_filter s).label = none → ∀ w, ¬ LabelSpecW (toLowerL s.data) w) := by
  have hiff := hasDueToday_iff (toLowerL s.data)
  refine ⟨?_, ?_, ?_, ?_⟩
  · rw [build_filter_due]
    cases hdt : hasDueToday (toLowerL s.data) with
    | true => simp [hiff.1 hdt]
    | false =>
      rw [hdt] at hiff
      simp only [Bool.false_eq_true, false_iff] at hiff
      simp [hiff]
  · rw [build_filter_due]
    cases hdt : hasDueToday (toLowerL s.data) with
    | true => simp [hiff.1 hdt]
    | false =>
      rw [hdt] at hiff
      simp only [Bool.false_eq_true, false_iff] at hiff
      simp [hiff]
  · intro w hw
    rw [build_filter_label] at hw
    cases hlc : labelCapture (toLowerL s.data) with
    | none => rw [hlc] at hw; cases hw
    | some l =>
      rw [hlc] at hw
      have hl : String.mk l = w := by simpa using hw
      have hwd : w.data = l := by rw [← hl]
      rw [hwd]
      exact labelCapture_spec _ _ hlc
  · intro hnone w hspec
    have hsome := labelCapture_isSome (toLowerL s.data) w hspec
    rw [build_filter_label] at hnone
    cases hlc : labelCapture (toLowerL s.data) with
    | some l => rw [hlc] at hnone; cases hnone
    | none => rw [hlc] at hsome; cases hsome

/-- C9 witness: "show tasks tagged work" captures the label "work", so the
specification-side label rule holds of it. -/
theorem claim9_witness :
    LabelSpecW (toLowerL ("show tasks tagged work" : String).data) ("work" : String).data :=
  (claim9_filter_rules "show tasks tagged work").2.2.1 "work" (by decide)

/-- C10: `format_task_list` is total on task dictionaries missing the
`content` key: a member task without `content` renders the bold
placeholder "**Untitled task**" in the output. -/
theorem claim10_untitled_placeholder (ts : List TaskDict) (fd : Option String) (t : TaskDict)
    (hmem : t ∈ ts) (hc : t.content = none) :
    strContains (format_task_list ts fd) "**Untitled task**" = true := by
  obtain ⟨a, b, hj⟩ := joinSep_mem_decomp formatLine ts t hmem
  obtain ⟨u, hf⟩ := formatLine_decomp t hc
  cases ts with
  | nil => cases hmem
  | cons hd tl =>
    show hasSub (lit "**Untitled task**")
      ((headerFor fd (hd :: tl).length
        ++ joinSep "\n" ((hd :: tl).map fun x => "- " ++ formatLine x)).data) = true
    rw [String.data_append, hj, hf]
    have hassoc : (headerFor fd (hd :: tl).length).data
          ++ (a ++ ((lit "**Untitled task**" ++ u) ++ b))
        = ((headerFor fd (hd :: tl).length).data ++ a)
          ++ (lit "**Untitled task**" ++ (u ++ b)) := by
      simp [List.append_assoc]
    rw [hassoc]
    exact hasSub_decomp _ _ _

/-- C10 witness: a singleton list whose task lacks `content` renders the
placeholder. -/
theorem claim10_witness :
    strContains (format_task_list [⟨none, none, none, [], none⟩] none) "**Untitled task**"
      = true :=
  claim10_untitled_placeholder _ none _ (List.mem_singleton.2 rfl) rfl


end DarkWave
